import Mathlib

/-!
Verification of the song-popularity-predictor pipeline.

Shallow embedding of the aggregation and cross-validation code of
`utilities/data_preparation_utilities.py`, `utilities/data_acquisition_utilities.py`
and `utilities/modeling_utilities.py`.  Numeric values are modelled as exact
rationals; Python / sklearn exceptions are modelled with an explicit error type
and `Except`; the randomness of `KFold(shuffle=True)` is modelled by an explicit
permutation argument; `math.sqrt` (a float operation) is modelled by an abstract
function argument `sqrtFn : ℚ → ℚ`, since none of the verified properties
depends on the value of a square root.
-/

namespace SongPop

/-- Python's built-in `round` on a value with no fractional tie is round to
nearest; on a tie (`fractional part = 1/2`) it rounds half to even. -/
def roundHalfEven (q : ℚ) : ℤ :=
  if q - (⌊q⌋ : ℚ) = 1/2 then (if 2 ∣ ⌊q⌋ then ⌊q⌋ else ⌊q⌋ + 1) else round q

/-- Python's `round(q, d)`: round to `d` decimal places, ties to even. -/
def pyRound (d : ℕ) (q : ℚ) : ℚ :=
  (roundHalfEven (q * 10 ^ d) : ℚ) / 10 ^ d

/-- `np.mean` / pandas `.mean()` of a list of numbers: sum divided by length
(on the empty list the rational division by zero yields `0`). -/
def listMean (l : List ℚ) : ℚ :=
  l.sum / l.length

/-- Errors raised by the Python code or its libraries.
`invalidInputError` is the error kind named by the specification; the source
never defines or raises it, it is present only so that the spec's claims can be
stated. -/
inductive PyErr where
  | valueError
  | indexError
  | invalidInputError
  | notFittedError
deriving DecidableEq

/-- One track-level row of the Spotify audio-feature table, with the columns
read by `generate_spotify_album_features`. -/
structure TrackRow where
  albumTitle : String
  artist : String
  durationMs : ℚ
  tempo : ℚ
  mode : ℚ
  danceability : ℚ
  energy : ℚ
  loudness : ℚ
  speechiness : ℚ
  acousticness : ℚ
  instrumentalness : ℚ
  liveness : ℚ
  valence : ℚ
deriving DecidableEq

/-- The single album-level row produced by `generate_spotify_album_features`. -/
structure AlbumRow where
  albumTitle : String
  artist : String
  numberOfTracks : ℕ
  durationMinutes : ℚ
  avgTempo : ℚ
  majorness : ℚ
  avgDanceability : ℚ
  avgEnergy : ℚ
  avgLoudness : ℚ
  avgSpeechiness : ℚ
  avgAcousticness : ℚ
  avgInstrumentalness : ℚ
  avgLiveness : ℚ
  avgValence : ℚ
deriving DecidableEq

namespace DataPrep

/-- `generate_spotify_album_features` of `data_preparation_utilities.py`.
On an empty frame, `album_tracks['Album Title'].iloc[0]` raises a pandas
`IndexError` (positional indexer out of bounds) before anything else runs.
On a non-empty frame, `num_tracks = len(album_tracks)`, and each aggregate
is the rounded sum or mean of its column. -/
def generate_spotify_album_features (ts : List TrackRow) : Except PyErr AlbumRow :=
  match ts with
  | [] => .error .indexError
  | t :: _ =>
    .ok {
      albumTitle := t.albumTitle
      artist := t.artist
      numberOfTracks := ts.length
      durationMinutes := pyRound 2 ((ts.map TrackRow.durationMs).sum / 1000 / 60)
      avgTempo := pyRound 2 (listMean (ts.map TrackRow.tempo))
      majorness := pyRound 4 ((ts.map TrackRow.mode).sum / ts.length)
      avgDanceability := pyRound 4 (listMean (ts.map TrackRow.danceability))
      avgEnergy := pyRound 4 (listMean (ts.map TrackRow.energy))
      avgLoudness := pyRound 2 (listMean (ts.map TrackRow.loudness))
      avgSpeechiness := pyRound 4 (listMean (ts.map TrackRow.speechiness))
      avgAcousticness := pyRound 4 (listMean (ts.map TrackRow.acousticness))
      avgInstrumentalness := pyRound 4 (listMean (ts.map TrackRow.instrumentalness))
      avgLiveness := pyRound 4 (listMean (ts.map TrackRow.liveness))
      avgValence := pyRound 4 (listMean (ts.map TrackRow.valence)) }

end DataPrep

namespace DataAcq

/-- `generate_spotify_album_features` of `data_acquisition_utilities.py`.
Identical to the data-preparation copy except for one line:
`num_tracks = len(album_tracks.shape)`, the length of the pandas `(rows, cols)`
shape tuple, which is `2` for every DataFrame regardless of its row count. -/
def generate_spotify_album_features (ts : List TrackRow) : Except PyErr AlbumRow :=
  match ts with
  | [] => .error .indexError
  | t :: _ =>
    .ok {
      albumTitle := t.albumTitle
      artist := t.artist
      numberOfTracks := 2
      durationMinutes := pyRound 2 ((ts.map TrackRow.durationMs).sum / 1000 / 60)
      avgTempo := pyRound 2 (listMean (ts.map TrackRow.tempo))
      majorness := pyRound 4 ((ts.map TrackRow.mode).sum / ts.length)
      avgDanceability := pyRound 4 (listMean (ts.map TrackRow.danceability))
      avgEnergy := pyRound 4 (listMean (ts.map TrackRow.energy))
      avgLoudness := pyRound 2 (listMean (ts.map TrackRow.loudness))
      avgSpeechiness := pyRound 4 (listMean (ts.map TrackRow.speechiness))
      avgAcousticness := pyRound 4 (listMean (ts.map TrackRow.acousticness))
      avgInstrumentalness := pyRound 4 (listMean (ts.map TrackRow.instrumentalness))
      avgLiveness := pyRound 4 (listMean (ts.map TrackRow.liveness))
      avgValence := pyRound 4 (listMean (ts.map TrackRow.valence)) }

/-- The Python idiom `zip(*(iter(l),) * g)`: consecutive groups of exactly `g`
elements; a trailing group of fewer than `g` elements is dropped. -/
def groupsOf (g : ℕ) (l : List α) : List (List α) :=
  if h : g = 0 ∨ l.length < g then []
  else l.take g :: groupsOf g (l.drop g)
termination_by l.length
decreasing_by
  push_neg at h
  simp only [List.length_drop]
  omega

/-- A track object returned by the Spotify `tracks` endpoint, with the fields
read by `get_spotify_track_popularity_and_artist_followers`
(`track['uri']`, `track['popularity']`, `track['artists'][0]['uri']`). -/
structure SpotifyTrack where
  uri : String
  popularity : ℤ
  artistUri : String
deriving DecidableEq

/-- The Spotify API client, modelled as the pair of lookups the code performs:
`client.tracks` returns one track object per requested URI in request order,
`client.artists` returns one artist object per requested URI in request order,
of which the code reads `artist['followers']['total']`. -/
structure SpotifyClient where
  trackOf : String → SpotifyTrack
  artistFollowersOf : String → ℤ

/-- One row of the DataFrame built by
`get_spotify_track_popularity_and_artist_followers`. -/
structure PopRow where
  trackUri : String
  popularity : ℤ
  artistFollowers : ℤ
deriving DecidableEq

/-- The row produced for a single requested track URI. -/
def popRowOf (c : SpotifyClient) (u : String) : PopRow :=
  { trackUri := (c.trackOf u).uri
    popularity := (c.trackOf u).popularity
    artistFollowers := c.artistFollowersOf (c.trackOf u).artistUri }

/-- The body of the group loop of
`get_spotify_track_popularity_and_artist_followers`: pull the track objects of
one URI group, look up the first artist of each track, and build one row per
`(track, artist)` pair of `zip(tracks, artists)`. -/
def groupRows (c : SpotifyClient) (grp : List String) : List PopRow :=
  let tracks := grp.map c.trackOf
  let artist_uris := tracks.map SpotifyTrack.artistUri
  let artists := artist_uris.map c.artistFollowersOf
  (tracks.zip artists).map (fun p =>
    { trackUri := p.1.uri
      popularity := p.1.popularity
      artistFollowers := p.2 })

/-- `get_spotify_track_popularity_and_artist_followers` of
`data_acquisition_utilities.py`: the URI list is broken into groups of 50 via
`zip(*(iter(track_uris),) * 50)`, and the rows built for each group are
appended to one list. -/
def get_spotify_track_popularity_and_artist_followers
    (c : SpotifyClient) (track_uris : List String) : List PopRow :=
  ((groupsOf 50 track_uris).map (groupRows c)).flatten

end DataAcq

namespace Modeling

/-- One cell of the feature matrix `X`: pandas columns may hold numbers or
strings; sklearn's `check_array` rejects the strings. -/
inductive Cell where
  | num (q : ℚ)
  | text (s : String)
deriving DecidableEq

/-- Whether a cell is numeric. -/
def Cell.isNum : Cell → Bool
  | .num _ => true
  | .text _ => false

/-- The numeric value of a cell (only read after the numeric check passes). -/
def Cell.val : Cell → ℚ
  | .num q => q
  | .text _ => 0

/-- The feature DataFrame `X`: named columns, rows of cells. -/
structure DataFrame where
  cols : List String
  rows : List (List Cell)

/-- `sklearn`'s `check_array` over a block of rows: every cell numeric. -/
def rowsNumeric (rs : List (List Cell)) : Bool :=
  rs.all (fun r => r.all Cell.isNum)

/-- The numeric contents of a block of rows. -/
def numVals (rs : List (List Cell)) : List (List ℚ) :=
  rs.map (fun r => r.map Cell.val)

/-- The estimator passed to `manual_cross_validate`, modelled by its sklearn
regressor interface: `fit` computes a fitted state from training data and
targets, `predict` applies a fitted state to one row, `coef` reads the
`coef_` attribute of a fitted state.  `score` is the `RegressorMixin` R²
computed from `predict`. -/
structure Estimator (σ : Type) where
  fit : List (List ℚ) → List ℚ → σ
  predict : σ → List ℚ → ℚ
  coef : σ → List ℚ

/-- `X.iloc[idxs]`: select rows by position. -/
def takeRows (rs : List (List Cell)) (idxs : List ℕ) : List (List Cell) :=
  idxs.map (fun i => rs.getD i [])

/-- `y.iloc[idxs]`: select target entries by position. -/
def takeTargets (y : List ℚ) (idxs : List ℕ) : List ℚ :=
  idxs.map (fun i => y.getD i 0)

/-- The state of a fitted `StandardScaler`: per-column `mean_`, `var_` and
`scale_`. -/
structure ScalerParams where
  mean_ : List ℚ
  var_ : List ℚ
  scale_ : List ℚ
deriving DecidableEq

/-- Population variance of a list, as `numpy` computes it for `var_`. -/
def listVar (l : List ℚ) : ℚ :=
  listMean (l.map (fun x => (x - listMean l) ^ 2))

/-- `StandardScaler.fit` on the (numeric) training rows: per-column mean and
population variance; `scale_` is the square root of the variance, with zero
variance mapped to scale 1 (sklearn's `_handle_zeros_in_scale`). -/
def scalerFit (sqrtFn : ℚ → ℚ) (rs : List (List ℚ)) : ScalerParams :=
  let cols := rs.transpose
  let means := cols.map listMean
  let vars := cols.map listVar
  { mean_ := means
    var_ := vars
    scale_ := vars.map (fun v => if v = 0 then 1 else sqrtFn v) }

/-- `StandardScaler.transform`: per column, subtract `mean_`, divide by
`scale_`. -/
def scalerTransform (p : ScalerParams) (rs : List (List ℚ)) : List (List ℚ) :=
  rs.map (fun r => List.zipWith (fun x ms => (x - ms.1) / ms.2) r (p.mean_.zip p.scale_))

/-- The scaler fitted in one fold on the training rows selected by `tr`. -/
def foldScaler (sqrtFn : ℚ → ℚ) (X : List (List Cell)) (tr : List ℕ) : ScalerParams :=
  scalerFit sqrtFn (numVals (takeRows X tr))

/-- The model state fitted in one fold: the estimator fit on the scaled
training rows and the training targets. -/
def foldFitState (sqrtFn : ℚ → ℚ) (est : Estimator σ)
    (X : List (List Cell)) (y : List ℚ) (tr : List ℕ) : σ :=
  est.fit (scalerTransform (foldScaler sqrtFn X tr) (numVals (takeRows X tr)))
    (takeTargets y tr)

/-- `sklearn.metrics.mean_squared_error`. -/
def mse (yTrue yPred : List ℚ) : ℚ :=
  listMean (List.zipWith (fun a b => (a - b) ^ 2) yTrue yPred)

/-- `RegressorMixin.score`: the coefficient of determination
`1 - ss_res / ss_tot`. -/
def r2Score (yTrue yPred : List ℚ) : ℚ :=
  1 - (List.zipWith (fun a b => (a - b) ^ 2) yTrue yPred).sum /
    ((yTrue.map (fun a => (a - listMean yTrue) ^ 2)).sum)

/-- The results of one iteration of the fold loop. -/
structure FoldOut (σ : Type) where
  r2t : ℚ
  r2v : ℚ
  rmse : ℚ
  st : σ

/-- One iteration of the fold loop of `manual_cross_validate`:
`scaler.fit_transform(X_train)` (whose `check_array` raises `ValueError` on a
non-numeric training cell), `scaler.transform(X_val)` (likewise for the
validation rows), `estimator.fit`, the two R² scores, and the validation
RMSE. -/
def cvStep (sqrtFn : ℚ → ℚ) (est : Estimator σ) (X : List (List Cell))
    (y : List ℚ) (tr va : List ℕ) : Except PyErr (FoldOut σ) :=
  let Xtr := takeRows X tr
  let ytr := takeTargets y tr
  let Xva := takeRows X va
  let yva := takeTargets y va
  if rowsNumeric Xtr = false then .error .valueError
  else
    let p := scalerFit sqrtFn (numVals Xtr)
    let XtrS := scalerTransform p (numVals Xtr)
    if rowsNumeric Xva = false then .error .valueError
    else
      let XvaS := scalerTransform p (numVals Xva)
      let st := est.fit XtrS ytr
      .ok { r2t := r2Score ytr (XtrS.map (est.predict st))
            r2v := r2Score yva (XvaS.map (est.predict st))
            rmse := sqrtFn (mse yva (XvaS.map (est.predict st)))
            st := st }

/-- The fold loop: one `cvStep` per `(train, validation)` index pair,
accumulating the three score lists and threading the estimator state, whose
final value is the state fitted in the last fold (`estimator` is a single
mutable object in the Python code). -/
def runFolds (sqrtFn : ℚ → ℚ) (est : Estimator σ) (X : List (List Cell))
    (y : List ℚ) : List (List ℕ × List ℕ) →
    Except PyErr (List ℚ × List ℚ × List ℚ × Option σ)
  | [] => .ok ([], [], [], none)
  | (tr, va) :: rest => do
    let fr ← cvStep sqrtFn est X y tr va
    let (r2t, r2v, rm, stO) ← runFolds sqrtFn est X y rest
    .ok (fr.r2t :: r2t, fr.r2v :: r2v, fr.rmse :: rm, (stO <|> some fr.st))

/-- sklearn `KFold` fold sizes: the first `n % k` folds have `n / k + 1`
elements, the rest `n / k`. -/
def foldSizes (n k : ℕ) : List ℕ :=
  (List.range k).map (fun i => n / k + if i < n % k then 1 else 0)

/-- Cut a list into consecutive slices of the given sizes. -/
def sliceBy : List ℕ → List α → List (List α)
  | [], _ => []
  | s :: ss, l => l.take s :: sliceBy ss (l.drop s)

/-- The validation folds produced by `KFold(n_splits=k, shuffle=True).split`
on `n` samples, given the shuffled index order `perm` drawn by the internal
random source: consecutive slices of `perm` with the `KFold` fold sizes. -/
def kfoldTestFolds (n k : ℕ) (perm : List ℕ) : List (List ℕ) :=
  sliceBy (foldSizes n k) perm

/-- The training indices paired with a validation fold: all sample indices
not in the fold, in ascending order (`np.arange(n)` under the negated test
mask). -/
def trainIndices (n : ℕ) (va : List ℕ) : List ℕ :=
  (List.range n).filter (fun i => decide (i ∉ va))

/-- The final report of `manual_cross_validate` (the values the function
prints): the three per-fold score lists, their means, and the last fitted
state's coefficients zipped with the column names of `X`. -/
structure CVReport where
  r2_train : List ℚ
  r2_val : List ℚ
  rmse : List ℚ
  r2_train_avg : ℚ
  r2_val_avg : ℚ
  rmse_avg : ℚ
  coefficients : List (ℚ × String)
deriving DecidableEq

/-- `manual_cross_validate` of `modeling_utilities.py`.
`KFold(n_splits=cv, shuffle=True)` raises `ValueError` for `cv < 2`;
`kf.split(X, y)` raises `ValueError` when `X` and `y` have different lengths
(`indexable`) and when `cv` exceeds the number of samples; the fold loop then
runs `cvStep` per fold.  `perm` is the shuffled index order drawn by the
fold generator's random source.  Reading `estimator.coef_` before any fit
would raise; with `cv ≥ 2` the loop always fits at least twice. -/
def manual_cross_validate (sqrtFn : ℚ → ℚ) (est : Estimator σ) (X : DataFrame)
    (y : List ℚ) (cv : ℕ) (perm : List ℕ) : Except PyErr CVReport :=
  if cv < 2 then .error .valueError
  else
    let n := X.rows.length
    if y.length ≠ n then .error .valueError
    else if n < cv then .error .valueError
    else
      let folds := kfoldTestFolds n cv perm
      match runFolds sqrtFn est X.rows y (folds.map (fun va => (trainIndices n va, va))) with
      | .error e => .error e
      | .ok (_, _, _, none) => .error .notFittedError
      | .ok (r2t, r2v, rm, some st) =>
        .ok { r2_train := r2t
              r2_val := r2v
              rmse := rm
              r2_train_avg := listMean r2t
              r2_val_avg := listMean r2v
              rmse_avg := listMean rm
              coefficients := (est.coef st).zip X.cols }

/-- The value a successful `cvStep` returns. -/
def foldOutOf (sqrtFn : ℚ → ℚ) (est : Estimator σ) (X : List (List Cell))
    (y : List ℚ) (tr va : List ℕ) : FoldOut σ :=
  let p := foldScaler sqrtFn X tr
  let XtrS := scalerTransform p (numVals (takeRows X tr))
  let XvaS := scalerTransform p (numVals (takeRows X va))
  let st := foldFitState sqrtFn est X y tr
  { r2t := r2Score (takeTargets y tr) (XtrS.map (est.predict st))
    r2v := r2Score (takeTargets y va) (XvaS.map (est.predict st))
    rmse := sqrtFn (mse (takeTargets y va) (XvaS.map (est.predict st)))
    st := st }

/-- A trivial estimator instance, used to evaluate the theorems on concrete
inputs. -/
def estU : Estimator Unit :=
  { fit := fun _ _ => ()
    predict := fun _ _ => 0
    coef := fun _ => [0] }

/-- A concrete numeric one-column frame with four rows. -/
def dfFour : DataFrame :=
  { cols := ["feature"], rows := [[.num 1], [.num 2], [.num 3], [.num 4]] }

/-- A concrete numeric one-column frame with one row. -/
def dfOne : DataFrame :=
  { cols := ["feature"], rows := [[.num 1]] }

end Modeling

/-- Concrete track fixtures (the three-track example of the specification;
features the example does not mention are zero). -/
def exTrack1 : TrackRow :=
  { albumTitle := "Album", artist := "Artist", durationMs := 180000, tempo := 120,
    mode := 1, danceability := 1/2, energy := 0, loudness := 0, speechiness := 0,
    acousticness := 0, instrumentalness := 0, liveness := 0, valence := 0 }

/-- Second track of the three-track example. -/
def exTrack2 : TrackRow :=
  { exTrack1 with durationMs := 200000, tempo := 130, mode := 1, danceability := 3/5 }

/-- Third track of the three-track example. -/
def exTrack3 : TrackRow :=
  { exTrack1 with durationMs := 220000, tempo := 125, mode := 0, danceability := 7/10 }

/-- A concrete Spotify client, used to evaluate the theorems on concrete
inputs. -/
def clientU : DataAcq.SpotifyClient :=
  { trackOf := fun u => { uri := u, popularity := 1, artistUri := u }
    artistFollowersOf := fun _ => 2 }

/-! ### Helper lemmas -/

namespace Modeling

/-- `sliceBy` produces one slice per requested size. -/
lemma sliceBy_length (ss : List ℕ) (l : List α) : (sliceBy ss l).length = ss.length := by
  induction ss generalizing l with
  | nil => rfl
  | cons s ss ih => simp [sliceBy, ih]

/-- The `KFold` fold sizes sum to the number of samples. -/
lemma foldSizes_sum (n k : ℕ) (hk : 0 < k) : (foldSizes n k).sum = n := by
  have h : (foldSizes n k).sum = ∑ i ∈ Finset.range k, (n / k + if i < n % k then 1 else 0) := rfl
  rw [h, Finset.sum_add_distrib, Finset.sum_const, Finset.card_range, Finset.sum_boole]
  have hfil : (Finset.range k).filter (fun i => i < n % k) = Finset.range (min (n % k) k) := by
    ext x
    simp only [Finset.mem_filter, Finset.mem_range, lt_min_iff]
    omega
  rw [hfil, Finset.card_range]
  have hmod : n % k < k := Nat.mod_lt _ hk
  have : min (n % k) k = n % k := by omega
  rw [this]
  simp only [smul_eq_mul, mul_one, Nat.cast_id]
  exact Nat.div_add_mod n k

/-- Joining the slices of a list recovers the list when the sizes sum to its
length. -/
lemma sliceBy_flatten (ss : List ℕ) (l : List α) (h : ss.sum = l.length) :
    (sliceBy ss l).flatten = l := by
  induction ss generalizing l with
  | nil =>
    have : l = [] := List.eq_nil_of_length_eq_zero (by simpa using h.symm)
    simp [sliceBy, this]
  | cons s ss ih =>
    simp only [List.sum_cons] at h
    simp only [sliceBy, List.flatten_cons]
    rw [ih (l.drop s) (by simp [List.length_drop]; omega)]
    exact List.take_append_drop s l

/-- The validation folds join back to the shuffled index list. -/
lemma kfoldTestFolds_flatten (n k : ℕ) (hk : 0 < k) (perm : List ℕ)
    (hp : perm.Perm (List.range n)) : (kfoldTestFolds n k perm).flatten = perm := by
  unfold kfoldTestFolds
  exact sliceBy_flatten _ _ (by rw [foldSizes_sum n k hk, hp.length_eq, List.length_range])

/-- There are exactly `k` validation folds. -/
lemma kfoldTestFolds_length (n k : ℕ) (perm : List ℕ) :
    (kfoldTestFolds n k perm).length = k := by
  unfold kfoldTestFolds foldSizes
  rw [sliceBy_length, List.length_map, List.length_range]

/-- The validation folds are pairwise disjoint. -/
lemma kfoldTestFolds_disjoint (n k : ℕ) (hk : 0 < k) (perm : List ℕ)
    (hp : perm.Perm (List.range n)) :
    List.Pairwise List.Disjoint (kfoldTestFolds n k perm) := by
  have hnd : (kfoldTestFolds n k perm).flatten.Nodup := by
    rw [kfoldTestFolds_flatten n k hk perm hp]
    exact hp.symm.nodup (List.nodup_range n)
  exact (List.nodup_flatten.mp hnd).2

/-- Every row index below `n` occurs in exactly one validation fold. -/
lemma kfoldTestFolds_count (n k : ℕ) (hk : 0 < k) (perm : List ℕ)
    (hp : perm.Perm (List.range n)) (i : ℕ) (hi : i < n) :
    (kfoldTestFolds n k perm).flatten.count i = 1 := by
  rw [kfoldTestFolds_flatten n k hk perm hp, hp.count_eq]
  exact List.count_eq_one_of_mem (List.nodup_range n) (List.mem_range.mpr hi)

/-- Selecting rows from an all-numeric block yields an all-numeric block
(missing positions select the empty, vacuously numeric, row). -/
lemma rowsNumeric_takeRows {X : List (List Cell)} (hX : rowsNumeric X = true)
    (idxs : List ℕ) : rowsNumeric (takeRows X idxs) = true := by
  rw [rowsNumeric, List.all_eq_true]
  intro r hr
  rw [takeRows, List.mem_map] at hr
  obtain ⟨i, _, hri⟩ := hr
  rw [List.getD_eq_getElem?_getD] at hri
  cases hgi : X[i]? with
  | none => rw [hgi] at hri; simp at hri; simp [hri]
  | some row =>
    rw [hgi] at hri
    simp only [Option.getD_some] at hri
    have hmem : row ∈ X := List.getElem?_mem hgi
    rw [rowsNumeric, List.all_eq_true] at hX
    rw [← hri]
    exact hX row hmem

/-- On an all-numeric matrix every fold iteration succeeds, with the value
`foldOutOf`. -/
lemma cvStep_ok {X : List (List Cell)} (hX : rowsNumeric X = true)
    (sqrtFn : ℚ → ℚ) (est : Estimator σ) (y : List ℚ) (tr va : List ℕ) :
    cvStep sqrtFn est X y tr va = .ok (foldOutOf sqrtFn est X y tr va) := by
  simp only [cvStep, foldOutOf, foldFitState, foldScaler, rowsNumeric_takeRows hX,
    Bool.true_eq_false, if_false]

/-- When the matrix holds a non-numeric cell, the very first fold iteration
raises `ValueError`: its training and validation rows together cover every
row, so the bad row hits either `fit_transform(X_train)` or
`transform(X_val)`. -/
lemma cvStep_err {X : List (List Cell)} (hnum : rowsNumeric X = false)
    (sqrtFn : ℚ → ℚ) (est : Estimator σ) (y : List ℚ) (va : List ℕ) :
    cvStep sqrtFn est X y (trainIndices X.length va) va = .error .valueError := by
  obtain ⟨r, hrmem, hrbad⟩ := List.all_eq_false.mp hnum
  obtain ⟨j, hj, hrj⟩ := List.mem_iff_getElem.mp hrmem
  cases htr : rowsNumeric (takeRows X (trainIndices X.length va)) with
  | false =>
    unfold cvStep
    rw [if_pos htr]
  | true =>
    have hjva : j ∈ va := by
      by_contra hjnva
      have hjtr : j ∈ trainIndices X.length va :=
        List.mem_filter.mpr ⟨List.mem_range.mpr hj, by simp [hjnva]⟩
      have hrmem' : r ∈ takeRows X (trainIndices X.length va) :=
        List.mem_map.mpr ⟨j, hjtr, by rw [List.getD_eq_getElem _ _ hj]; exact hrj⟩
      rw [rowsNumeric, List.all_eq_true] at htr
      exact hrbad (htr r hrmem')
    have hva : rowsNumeric (takeRows X va) = false := by
      rw [rowsNumeric, List.all_eq_false]
      refine ⟨r, ?_, hrbad⟩
      exact List.mem_map.mpr ⟨j, hjva, by rw [List.getD_eq_getElem _ _ hj]; exact hrj⟩
    unfold cvStep
    rw [if_neg (by simp [htr]), if_pos hva]

/-- On an all-numeric matrix the fold loop succeeds, produces one entry of
each score list per fold, and ends with the state fitted in the last fold. -/
lemma runFolds_ok {X : List (List Cell)} (hX : rowsNumeric X = true)
    (sqrtFn : ℚ → ℚ) (est : Estimator σ) (y : List ℚ)
    (fs : List (List ℕ × List ℕ)) :
    runFolds sqrtFn est X y fs =
      .ok ((fs.map (fun p => (foldOutOf sqrtFn est X y p.1 p.2).r2t)),
        (fs.map (fun p => (foldOutOf sqrtFn est X y p.1 p.2).r2v)),
        (fs.map (fun p => (foldOutOf sqrtFn est X y p.1 p.2).rmse)),
        (fs.getLast?.map (fun p => foldFitState sqrtFn est X y p.1))) := by
  induction fs with
  | nil => rfl
  | cons p rest ih =>
    obtain ⟨tr, va⟩ := p
    simp only [runFolds, cvStep_ok hX sqrtFn est y tr va, bind, Except.bind, ih]
    cases rest with
    | nil => simp [foldOutOf]
    | cons q qs =>
      have hs : ((q :: qs).getLast?).isSome := List.getLast?_isSome.mpr (by simp)
      obtain ⟨a, ha⟩ := Option.isSome_iff_exists.mp hs
      simp [ha]

/-- The report computed by a successful run of `manual_cross_validate`:
per-fold scores mapped over the validation folds, their means, and the
coefficients of the state fitted in the last fold. -/
lemma manual_cross_validate_ok (sqrtFn : ℚ → ℚ) (est : Estimator σ)
    (X : DataFrame) (y : List ℚ) (cv : ℕ) (perm : List ℕ)
    (h2 : 2 ≤ cv) (hy : y.length = X.rows.length) (hcv : cv ≤ X.rows.length)
    (hnum : rowsNumeric X.rows = true) :
    manual_cross_validate sqrtFn est X y cv perm = .ok
      { r2_train := (kfoldTestFolds X.rows.length cv perm).map
          (fun va => (foldOutOf sqrtFn est X.rows y (trainIndices X.rows.length va) va).r2t)
        r2_val := (kfoldTestFolds X.rows.length cv perm).map
          (fun va => (foldOutOf sqrtFn est X.rows y (trainIndices X.rows.length va) va).r2v)
        rmse := (kfoldTestFolds X.rows.length cv perm).map
          (fun va => (foldOutOf sqrtFn est X.rows y (trainIndices X.rows.length va) va).rmse)
        r2_train_avg := listMean ((kfoldTestFolds X.rows.length cv perm).map
          (fun va => (foldOutOf sqrtFn est X.rows y (trainIndices X.rows.length va) va).r2t))
        r2_val_avg := listMean ((kfoldTestFolds X.rows.length cv perm).map
          (fun va => (foldOutOf sqrtFn est X.rows y (trainIndices X.rows.length va) va).r2v))
        rmse_avg := listMean ((kfoldTestFolds X.rows.length cv perm).map
          (fun va => (foldOutOf sqrtFn est X.rows y (trainIndices X.rows.length va) va).rmse))
        coefficients := (est.coef (foldFitState sqrtFn est X.rows y
          (trainIndices X.rows.length ((kfoldTestFolds X.rows.length cv perm).getLastD [])))).zip X.cols } := by
  have hfne : kfoldTestFolds X.rows.length cv perm ≠ [] := by
    have := kfoldTestFolds_length X.rows.length cv perm
    intro hcon
    rw [hcon] at this
    simp at this
    omega
  obtain ⟨lastVa, hlast⟩ := Option.isSome_iff_exists.mp (List.getLast?_isSome.mpr hfne)
  unfold manual_cross_validate
  rw [if_neg (by omega), if_neg (by omega), if_neg (by omega)]
  simp only [runFolds_ok hnum, List.map_map, List.getLast?_map, hlast, Option.map_some,
    Function.comp]
  have hD : (kfoldTestFolds X.rows.length cv perm).getLastD [] = lastVa := by
    rw [List.getLastD_eq_getLast?, hlast]
    rfl
  rw [hD]
  simp [Function.comp_def]

end Modeling

/-- `roundHalfEven` never moves a value past the next integer downward. -/
lemma roundHalfEven_nonneg {q : ℚ} (h : 0 ≤ q) : 0 ≤ roundHalfEven q := by
  unfold roundHalfEven
  have hfl : (0 : ℤ) ≤ ⌊q⌋ := Int.floor_nonneg.mpr h
  split
  · split <;> omega
  · rw [round_eq]
    calc (0 : ℤ) ≤ ⌊q⌋ := hfl
      _ ≤ ⌊q + 1/2⌋ := Int.floor_le_floor (by linarith)

/-- `roundHalfEven` never exceeds an integer upper bound of its argument. -/
lemma roundHalfEven_le {q : ℚ} {N : ℤ} (h : q ≤ N) : roundHalfEven q ≤ N := by
  unfold roundHalfEven
  split
  next hhalf =>
    have hne : q ≠ (N : ℚ) := by
      intro hcon
      rw [hcon] at hhalf
      rw [Int.floor_intCast] at hhalf
      simp at hhalf
    have hlt : q < (N : ℚ) := lt_of_le_of_ne h hne
    have hfl : ⌊q⌋ < N := by
      have := Int.floor_le_floor hlt.le
      rw [Int.floor_intCast] at this
      rcases lt_or_eq_of_le this with h1 | h1
      · exact h1
      · exfalso
        have : (N : ℚ) ≤ q := by rw [← h1]; exact Int.floor_le q
        linarith
    split <;> omega
  · have : q + 1/2 ≤ (N : ℚ) + 1/2 := by linarith
    calc round q = ⌊q + 1/2⌋ := round_eq q
      _ ≤ ⌊(N : ℚ) + 1/2⌋ := Int.floor_le_floor this
      _ = ⌊(1/2 : ℚ) + N⌋ := by ring_nf
      _ = ⌊(1/2 : ℚ)⌋ + N := Int.floor_add_int _ N
      _ = N := by norm_num

/-- Evaluate `pyRound` away from a tie: when `f` bounds `q * 10 ^ d` as its
floor, the fractional part is not `1/2`, and `r` bounds `q * 10 ^ d + 1/2` as
its floor, then `pyRound d q = r / 10 ^ d`. -/
lemma pyRound_eval (d : ℕ) (q : ℚ) (f r : ℤ)
    (hf : (f : ℚ) ≤ q * 10 ^ d) (hf2 : q * 10 ^ d < f + 1)
    (hne : q * 10 ^ d - (f : ℚ) ≠ 1/2)
    (hr : (r : ℚ) ≤ q * 10 ^ d + 1/2) (hr2 : q * 10 ^ d + 1/2 < r + 1) :
    pyRound d q = (r : ℚ) / 10 ^ d := by
  have hfl : ⌊q * 10 ^ d⌋ = f := Int.floor_eq_iff.mpr ⟨hf, hf2⟩
  have hro : round (q * 10 ^ d) = r := by
    rw [round_eq]
    exact Int.floor_eq_iff.mpr ⟨hr, hr2⟩
  unfold pyRound roundHalfEven
  rw [hfl, if_neg hne, hro]

/-- Rounding to `d` decimals keeps a value of `[0, 1]` inside `[0, 1]`. -/
lemma pyRound_mem_unit {q : ℚ} (d : ℕ) (h0 : 0 ≤ q) (h1 : q ≤ 1) :
    0 ≤ pyRound d q ∧ pyRound d q ≤ 1 := by
  unfold pyRound
  have hp : (0 : ℚ) < 10 ^ d := by positivity
  have hm0 : 0 ≤ q * 10 ^ d := by positivity
  have hm1 : q * 10 ^ d ≤ ((10 ^ d : ℤ) : ℚ) := by
    push_cast
    nlinarith
  have hr0 := roundHalfEven_nonneg hm0
  have hr1 := roundHalfEven_le hm1
  constructor
  · apply div_nonneg _ hp.le
    exact_mod_cast hr0
  · rw [div_le_one hp]
    calc ((roundHalfEven (q * 10 ^ d) : ℤ) : ℚ) ≤ ((10 ^ d : ℤ) : ℚ) := by exact_mod_cast hr1
      _ = 10 ^ d := by push_cast; ring

namespace DataAcq

/-- Joining the groups of `g` recovers the longest prefix whose length is a
multiple of `g`; the trailing remainder is dropped. -/
lemma groupsOf_flatten (g : ℕ) (l : List α) :
    (groupsOf g l).flatten = l.take (g * (l.length / g)) := by
  rw [groupsOf]
  split
  next h =>
    rcases h with h0 | hlt
    · subst h0
      simp
    · rw [Nat.div_eq_of_lt hlt]
      simp
  next h =>
    push_neg at h
    obtain ⟨hg0, hge⟩ := h
    have hg : 0 < g := Nat.pos_of_ne_zero hg0
    rw [List.flatten_cons, groupsOf_flatten g (l.drop g)]
    rw [List.length_drop]
    have hdiv : l.length / g = (l.length - g) / g + 1 := Nat.div_eq_sub_div hg hge
    rw [hdiv, Nat.mul_add, Nat.mul_one, Nat.add_comm (g * ((l.length - g) / g)) g,
      List.take_add]
termination_by l.length
decreasing_by
  simp only [List.length_drop]
  omega

/-- The rows produced for one group of URIs: one `popRowOf` row per URI. -/
lemma groupRows_eq (c : SpotifyClient) (grp : List String) :
    groupRows c grp = grp.map (popRowOf c) := by
  simp only [groupRows, List.map_map, List.zip_map', popRowOf, Function.comp_def]
  rfl

end DataAcq

/-! ### The claims -/

/-- C1: for a feature matrix with `n` rows and a fold count `k` with
`2 ≤ k ≤ n`, `manual_cross_validate` partitions the row indices into `k`
validation folds that are pairwise disjoint and jointly cover all `n` row
indices exactly once, and produces exactly `k` per-fold train scores, `k`
per-fold validation scores and `k` per-fold RMSE values. -/
theorem cross_validate_partitions_folds_and_scores
    (sqrtFn : ℚ → ℚ) {σ : Type} (est : Modeling.Estimator σ)
    (X : Modeling.DataFrame) (y : List ℚ) (cv : ℕ) (perm : List ℕ)
    (h2 : 2 ≤ cv) (hcv : cv ≤ X.rows.length) (hy : y.length = X.rows.length)
    (hperm : perm.Perm (List.range X.rows.length))
    (hnum : Modeling.rowsNumeric X.rows = true) :
    (Modeling.kfoldTestFolds X.rows.length cv perm).length = cv ∧
    List.Pairwise List.Disjoint (Modeling.kfoldTestFolds X.rows.length cv perm) ∧
    (∀ i < X.rows.length,
      (Modeling.kfoldTestFolds X.rows.length cv perm).flatten.count i = 1) ∧
    ∃ r, Modeling.manual_cross_validate sqrtFn est X y cv perm = .ok r ∧
      r.r2_train.length = cv ∧ r.r2_val.length = cv ∧ r.rmse.length = cv := by
  have hk : 0 < cv := by omega
  refine ⟨Modeling.kfoldTestFolds_length _ _ _,
    Modeling.kfoldTestFolds_disjoint _ _ hk _ hperm,
    fun i hi => Modeling.kfoldTestFolds_count _ _ hk _ hperm i hi, ?_⟩
  refine ⟨_, Modeling.manual_cross_validate_ok sqrtFn est X y cv perm h2 hy hcv hnum, ?_, ?_, ?_⟩
  all_goals
    simp only [List.length_map]
    exact Modeling.kfoldTestFolds_length _ _ _

/-- C1 witness: a concrete run with `n = 4`, `k = 2` and the shuffled index
order `[1, 0, 3, 2]`. -/
theorem cross_validate_partitions_folds_and_scores_witness :
    (Modeling.kfoldTestFolds Modeling.dfFour.rows.length 2 [1, 0, 3, 2]).length = 2 ∧
    List.Pairwise List.Disjoint
      (Modeling.kfoldTestFolds Modeling.dfFour.rows.length 2 [1, 0, 3, 2]) ∧
    (∀ i < Modeling.dfFour.rows.length,
      (Modeling.kfoldTestFolds Modeling.dfFour.rows.length 2 [1, 0, 3, 2]).flatten.count i = 1) ∧
    ∃ r, Modeling.manual_cross_validate id Modeling.estU Modeling.dfFour [1, 2, 3, 4] 2 [1, 0, 3, 2] = .ok r ∧
      r.r2_train.length = 2 ∧ r.r2_val.length = 2 ∧ r.rmse.length = 2 :=
  cross_validate_partitions_folds_and_scores id Modeling.estU Modeling.dfFour
    [1, 2, 3, 4] 2 [1, 0, 3, 2] (by decide) (by decide) (by decide) (by decide) (by decide)

/-- C2: in every fold, the scaler is fitted on the training rows only and the
model on the scaled training rows; hence two runs with the same fold
assignment that agree on the training rows (and may differ arbitrarily on the
validation rows) produce identical fitted scaler parameters and identical
fitted model coefficients for that fold. -/
theorem fold_fit_no_validation_leakage
    (sqrtFn : ℚ → ℚ) {σ : Type} (est : Modeling.Estimator σ)
    (X Xalt : List (List Modeling.Cell)) (y yalt : List ℚ) (tr : List ℕ)
    (hX : ∀ i ∈ tr, X.getD i [] = Xalt.getD i [])
    (hy : ∀ i ∈ tr, y.getD i 0 = yalt.getD i 0) :
    Modeling.foldScaler sqrtFn X tr = Modeling.foldScaler sqrtFn Xalt tr ∧
    est.coef (Modeling.foldFitState sqrtFn est X y tr) =
      est.coef (Modeling.foldFitState sqrtFn est Xalt yalt tr) := by
  have hrows : Modeling.takeRows X tr = Modeling.takeRows Xalt tr :=
    List.map_congr_left hX
  have htargets : Modeling.takeTargets y tr = Modeling.takeTargets yalt tr :=
    List.map_congr_left hy
  constructor
  · unfold Modeling.foldScaler
    rw [hrows]
  · unfold Modeling.foldFitState Modeling.foldScaler
    rw [hrows, htargets]

/-- C2 witness: two concrete datasets that agree on training rows `[0, 1]`
and differ in validation row `2` give the same fold-scaler parameters and
coefficients. -/
theorem fold_fit_no_validation_leakage_witness :
    Modeling.foldScaler id [[.num 1], [.num 2], [.num 9]] [0, 1] =
      Modeling.foldScaler id [[.num 1], [.num 2], [.num 5]] [0, 1] ∧
    Modeling.estU.coef
        (Modeling.foldFitState id Modeling.estU [[.num 1], [.num 2], [.num 9]] [1, 2, 3] [0, 1]) =
      Modeling.estU.coef
        (Modeling.foldFitState id Modeling.estU [[.num 1], [.num 2], [.num 5]] [1, 2, 7] [0, 1]) :=
  fold_fit_no_validation_leakage id Modeling.estU
    [[.num 1], [.num 2], [.num 9]] [[.num 1], [.num 2], [.num 5]]
    [1, 2, 3] [1, 2, 7] [0, 1] (by decide) (by decide)

/-- C3 counterexample: on the empty input the aggregator does fail, but with
the pandas `IndexError` raised by `.iloc[0]`, not with `InvalidInputError`
(no such error type exists anywhere in the code). -/
theorem aggregate_empty_error_is_not_invalid_input :
    DataPrep.generate_spotify_album_features [] ≠ .error .invalidInputError := by
  intro h
  have he : DataPrep.generate_spotify_album_features [] = .error .indexError := rfl
  rw [he] at h
  exact PyErr.noConfusion (Except.error.inj h)

/-- C3 amended: `generate_spotify_album_features` applied to an empty sequence
of track rows fails with the pandas positional-indexing `IndexError`. -/
theorem aggregate_empty_fails_with_index_error :
    DataPrep.generate_spotify_album_features [] = .error .indexError := rfl

/-- C4 counterexample: with one row and the default five folds (`n < k`),
`manual_cross_validate` fails with the sklearn `ValueError`, not with
`InvalidInputError`. -/
theorem cross_validate_error_is_not_invalid_input :
    Modeling.manual_cross_validate id Modeling.estU Modeling.dfOne [1] 5 [0] ≠
      .error .invalidInputError := by
  intro h
  have he : Modeling.manual_cross_validate id Modeling.estU Modeling.dfOne [1] 5 [0] =
      .error .valueError := rfl
  rw [he] at h
  exact PyErr.noConfusion (Except.error.inj h)

/-- C4 amended: `manual_cross_validate` fails — with the `ValueError` raised
by the underlying libraries, the code containing no validation of its own and
no `InvalidInputError` type — whenever the number of rows is smaller than the
fold count, or `X` and `y` have mismatched row counts, or any cell of `X` is
non-numeric. -/
theorem cross_validate_fails_with_value_error
    (sqrtFn : ℚ → ℚ) {σ : Type} (est : Modeling.Estimator σ)
    (X : Modeling.DataFrame) (y : List ℚ) (cv : ℕ) (perm : List ℕ)
    (hbad : X.rows.length < cv ∨ y.length ≠ X.rows.length ∨
      Modeling.rowsNumeric X.rows = false) :
    Modeling.manual_cross_validate sqrtFn est X y cv perm = .error .valueError := by
  unfold Modeling.manual_cross_validate
  by_cases h2 : cv < 2
  · rw [if_pos h2]
  · rw [if_neg h2]
    by_cases hym : y.length ≠ X.rows.length
    · rw [if_pos hym]
    · rw [if_neg hym]
      push_neg at hym
      by_cases hlt : X.rows.length < cv
      · rw [if_pos hlt]
      · rw [if_neg hlt]
        have hnum : Modeling.rowsNumeric X.rows = false := by
          rcases hbad with h | h | h
          · exact absurd h hlt
          · exact absurd h (by omega)
          · exact h
        have hlen := Modeling.kfoldTestFolds_length X.rows.length cv perm
        obtain ⟨va1, rest, hfolds⟩ :
            ∃ va1 rest, Modeling.kfoldTestFolds X.rows.length cv perm = va1 :: rest := by
          cases hf : Modeling.kfoldTestFolds X.rows.length cv perm with
          | nil => rw [hf] at hlen; simp at hlen; omega
          | cons a l => exact ⟨a, l, rfl⟩
        simp only [hfolds, List.map_cons, Modeling.runFolds,
          Modeling.cvStep_err hnum sqrtFn est y va1, bind, Except.bind]

/-- C4 witness: the amended theorem applied to one row and five folds. -/
theorem cross_validate_fails_with_value_error_witness :
    Modeling.manual_cross_validate id Modeling.estU Modeling.dfOne [1] 5 [0] =
      .error .valueError :=
  cross_validate_fails_with_value_error id Modeling.estU Modeling.dfOne [1] 5 [0]
    (Or.inl (by decide))

/-- C5: on every non-empty homogeneous batch of track rows whose modes are all
`0` or `1`, the aggregator returns `track_count` equal to the number of input
rows and a majorness in `[0, 1]`. -/
theorem aggregate_track_count_and_majorness
    (ts : List TrackRow) (hne : ts ≠ [])
    (hhom : ∀ t ∈ ts, ∀ u ∈ ts, t.albumTitle = u.albumTitle ∧ t.artist = u.artist)
    (hmode : ∀ t ∈ ts, t.mode = 0 ∨ t.mode = 1) :
    ∃ r, DataPrep.generate_spotify_album_features ts = .ok r ∧
      r.numberOfTracks = ts.length ∧ 0 ≤ r.majorness ∧ r.majorness ≤ 1 := by
  cases ts with
  | nil => exact absurd rfl hne
  | cons a l =>
    refine ⟨_, rfl, rfl, ?_, ?_⟩
    all_goals
    · have hs0 : 0 ≤ ((a :: l).map TrackRow.mode).sum := by
        apply List.sum_nonneg
        intro x hx
        obtain ⟨t, ht, hxt⟩ := List.mem_map.mp hx
        rcases hmode t ht with h | h <;> rw [← hxt, h] <;> norm_num
      have hs1 : ((a :: l).map TrackRow.mode).sum ≤ ((a :: l).length : ℚ) := by
        have := List.sum_le_card_nsmul ((a :: l).map TrackRow.mode) 1 (by
          intro x hx
          obtain ⟨t, ht, hxt⟩ := List.mem_map.mp hx
          rcases hmode t ht with h | h <;> rw [← hxt, h] <;> norm_num)
        rw [List.length_map] at this
        simpa [nsmul_eq_mul] using this
      have hlen : (0 : ℚ) < ((a :: l).length : ℚ) := by
        simp only [List.length_cons]
        positivity
      have hq0 : 0 ≤ ((a :: l).map TrackRow.mode).sum / ((a :: l).length : ℚ) :=
        div_nonneg hs0 hlen.le
      have hq1 : ((a :: l).map TrackRow.mode).sum / ((a :: l).length : ℚ) ≤ 1 :=
        (div_le_one hlen).mpr hs1
      first
      | exact (pyRound_mem_unit 4 hq0 hq1).1
      | exact (pyRound_mem_unit 4 hq0 hq1).2

/-- C5 witness: a concrete two-track homogeneous batch. -/
theorem aggregate_track_count_and_majorness_witness :
    ∃ r, DataPrep.generate_spotify_album_features [exTrack1, exTrack2] = .ok r ∧
      r.numberOfTracks = [exTrack1, exTrack2].length ∧
      0 ≤ r.majorness ∧ r.majorness ≤ 1 :=
  aggregate_track_count_and_majorness [exTrack1, exTrack2] (by decide)
    (by decide) (by decide)

/-- C6: the three-track example — durations `[180000, 200000, 220000]` ms,
tempos `[120, 130, 125]`, modes `[1, 1, 0]`, danceability `[0.5, 0.6, 0.7]` —
aggregates to `track_count = 3`, `duration_minutes = 10.0`,
`avg_tempo = 125.0`, `majorness = 0.6667` and `avg_danceability = 0.6`. -/
theorem aggregate_three_track_example :
    (DataPrep.generate_spotify_album_features [exTrack1, exTrack2, exTrack3]).toOption.map
        (fun r => (r.numberOfTracks, r.durationMinutes, r.avgTempo, r.majorness,
          r.avgDanceability)) =
      some (3, 10, 125, 6667/10000, 3/5) := by
  have hdur : pyRound 2 (10 : ℚ) = 10 := by
    have h := pyRound_eval 2 10 1000 1000 (by norm_num) (by norm_num) (by norm_num)
      (by norm_num) (by norm_num)
    rw [h]
    norm_num
  have htempo : pyRound 2 (125 : ℚ) = 125 := by
    have h := pyRound_eval 2 125 12500 12500 (by norm_num) (by norm_num) (by norm_num)
      (by norm_num) (by norm_num)
    rw [h]
    norm_num
  have hmaj : pyRound 4 ((2 : ℚ)/3) = 6667/10000 := by
    have h := pyRound_eval 4 (2/3) 6666 6667 (by norm_num) (by norm_num) (by norm_num)
      (by norm_num) (by norm_num)
    rw [h]
    norm_num
  have hdance : pyRound 4 ((3 : ℚ)/5) = 3/5 := by
    have h := pyRound_eval 4 (3/5) 6000 6000 (by norm_num) (by norm_num) (by norm_num)
      (by norm_num) (by norm_num)
    rw [h]
    norm_num
  simp only [DataPrep.generate_spotify_album_features, Except.toOption, Option.map,
    exTrack1, exTrack2, exTrack3, List.map_cons, List.map_nil, List.sum_cons,
    List.sum_nil, List.length_cons, List.length_nil, listMean]
  norm_num
  exact ⟨hdur, htempo, hmaj, hdance⟩

/-- C7: the aggregator is invariant under permutation of a non-empty
homogeneous batch. -/
theorem aggregate_permutation_invariant
    (ts ts' : List TrackRow) (hne : ts ≠ [])
    (hhom : ∀ t ∈ ts, ∀ u ∈ ts, t.albumTitle = u.albumTitle ∧ t.artist = u.artist)
    (hperm : ts.Perm ts') :
    DataPrep.generate_spotify_album_features ts =
      DataPrep.generate_spotify_album_features ts' := by
  have hsum : ∀ f : TrackRow → ℚ, (ts.map f).sum = (ts'.map f).sum :=
    fun f => (hperm.map f).sum_eq
  have hlen : ts.length = ts'.length := hperm.length_eq
  cases ts with
  | nil => exact absurd rfl hne
  | cons a l =>
    cases ts' with
    | nil =>
      exact absurd hperm.length_eq (by simp)
    | cons b l' =>
      have hab : a.albumTitle = b.albumTitle ∧ a.artist = b.artist := by
        have hbmem : b ∈ a :: l := hperm.mem_iff.mpr (List.mem_cons_self b l')
        exact hhom a (List.mem_cons_self a l) b hbmem
      simp only [DataPrep.generate_spotify_album_features, listMean, Except.ok.injEq,
        AlbumRow.mk.injEq]
      refine ⟨hab.1, hab.2, ?_⟩
      rw [hsum TrackRow.durationMs, hsum TrackRow.tempo, hsum TrackRow.mode,
        hsum TrackRow.danceability, hsum TrackRow.energy, hsum TrackRow.loudness,
        hsum TrackRow.speechiness, hsum TrackRow.acousticness,
        hsum TrackRow.instrumentalness, hsum TrackRow.liveness, hsum TrackRow.valence]
      simp only [List.length_map, hlen]
      norm_num

/-- C7 witness: swapping the two rows of a concrete homogeneous batch leaves
the aggregate unchanged. -/
theorem aggregate_permutation_invariant_witness :
    DataPrep.generate_spotify_album_features [exTrack1, exTrack2] =
      DataPrep.generate_spotify_album_features [exTrack2, exTrack1] :=
  aggregate_permutation_invariant [exTrack1, exTrack2] [exTrack2, exTrack1]
    (by decide) (by decide) (List.Perm.swap exTrack2 exTrack1 [])

/-- C8: the coefficients reported at the end of a successful
`manual_cross_validate` run are exactly the coefficients of the model state
fitted in the final fold, paired positionally with the column names of `X`. -/
theorem cross_validate_reports_last_fold_coefficients
    (sqrtFn : ℚ → ℚ) {σ : Type} (est : Modeling.Estimator σ)
    (X : Modeling.DataFrame) (y : List ℚ) (cv : ℕ) (perm : List ℕ)
    (h2 : 2 ≤ cv) (hcv : cv ≤ X.rows.length) (hy : y.length = X.rows.length)
    (hnum : Modeling.rowsNumeric X.rows = true) :
    ∃ r, Modeling.manual_cross_validate sqrtFn est X y cv perm = .ok r ∧
      r.coefficients = (est.coef (Modeling.foldFitState sqrtFn est X.rows y
        (Modeling.trainIndices X.rows.length
          ((Modeling.kfoldTestFolds X.rows.length cv perm).getLastD [])))).zip X.cols :=
  ⟨_, Modeling.manual_cross_validate_ok sqrtFn est X y cv perm h2 hy hcv hnum, rfl⟩

/-- C8 witness: the concrete run of `n = 4`, `k = 2`. -/
theorem cross_validate_reports_last_fold_coefficients_witness :
    ∃ r, Modeling.manual_cross_validate id Modeling.estU Modeling.dfFour
        [1, 2, 3, 4] 2 [1, 0, 3, 2] = .ok r ∧
      r.coefficients = (Modeling.estU.coef (Modeling.foldFitState id Modeling.estU
        Modeling.dfFour.rows [1, 2, 3, 4]
        (Modeling.trainIndices Modeling.dfFour.rows.length
          ((Modeling.kfoldTestFolds Modeling.dfFour.rows.length 2 [1, 0, 3, 2]).getLastD [])))).zip
        Modeling.dfFour.cols :=
  cross_validate_reports_last_fold_coefficients id Modeling.estU Modeling.dfFour
    [1, 2, 3, 4] 2 [1, 0, 3, 2] (by decide) (by decide) (by decide) (by decide)

/-- C9 (code bug): on the three-track example, the data-preparation
`generate_spotify_album_features` reports 3 tracks while the
data-acquisition copy — whose `num_tracks = len(album_tracks.shape)` measures
the length of the pandas shape tuple — reports 2, so the two functions do not
agree on the `Number of Tracks` field. -/
theorem acquisition_aggregator_track_count_diverges :
    (DataPrep.generate_spotify_album_features
        [exTrack1, exTrack2, exTrack3]).toOption.map AlbumRow.numberOfTracks = some 3 ∧
    (DataAcq.generate_spotify_album_features
        [exTrack1, exTrack2, exTrack3]).toOption.map AlbumRow.numberOfTracks = some 2 :=
  ⟨rfl, rfl⟩

/-- C10: `get_spotify_track_popularity_and_artist_followers` returns one row
per URI for exactly the first `50 * ⌊n / 50⌋` URIs, silently dropping the
trailing `n mod 50` URIs; in particular for `n < 50` the result is empty. -/
theorem track_popularity_drops_trailing_remainder
    (c : DataAcq.SpotifyClient) (uris : List String) :
    DataAcq.get_spotify_track_popularity_and_artist_followers c uris =
      (uris.take (50 * (uris.length / 50))).map (DataAcq.popRowOf c) ∧
    (uris.length < 50 →
      DataAcq.get_spotify_track_popularity_and_artist_followers c uris = []) := by
  have hmain : DataAcq.get_spotify_track_popularity_and_artist_followers c uris =
      (uris.take (50 * (uris.length / 50))).map (DataAcq.popRowOf c) := by
    unfold DataAcq.get_spotify_track_popularity_and_artist_followers
    rw [List.map_congr_left (fun grp _ => DataAcq.groupRows_eq c grp)]
    rw [← List.map_flatten, DataAcq.groupsOf_flatten]
  refine ⟨hmain, fun hlt => ?_⟩
  rw [hmain, Nat.div_eq_of_lt hlt]
  simp

/-- C10 witness: three URIs produce no rows. -/
theorem track_popularity_drops_trailing_remainder_witness :
    DataAcq.get_spotify_track_popularity_and_artist_followers clientU ["a", "b", "c"] =
      (["a", "b", "c"].take (50 * (["a", "b", "c"].length / 50))).map
        (DataAcq.popRowOf clientU) ∧
    DataAcq.get_spotify_track_popularity_and_artist_followers clientU ["a", "b", "c"] = [] :=
  ⟨(track_popularity_drops_trailing_remainder clientU ["a", "b", "c"]).1,
    (track_popularity_drops_trailing_remainder clientU ["a", "b", "c"]).2 (by decide)⟩

end SongPop
